import Mathlib

/-!
# Verification of the E57 reader core (antonWetzel/e57)

Shallow embedding of the binary decode path of the E57 point-cloud reader:
the paged/CRC storage layer, the packet walker and the per-field bit-packing
decoders, translated from the Rust sources (`src/pc_reader/loader.rs`,
`src/pc_reader/mod.rs`, `src/pc_reader/converter.rs`, `src/pc_reader/saver.rs`,
`src/bs_read.rs`, `src/crc32.rs`, `src/e57.rs`, `src/paged_reader.rs`,
`src/mmap_paged.rs`).

Machine integers are modelled as `Nat` (unsigned) and `Int` (signed) with
explicit wrap-around where the Rust code can overflow.  A byte is a `Nat`
that is `< 256` for every value actually produced by the code; a memory map
is a total function `Nat → Nat` (out-of-range indexing in Rust aborts the
process, which is outside the error monad and not modelled).  IEEE float
values are kept symbolic: the decoders only move their bit patterns around
and never branch on them, so they are represented by inductive values that
record exactly the computation the code performs.
-/

set_option maxRecDepth 8000

namespace E57

/-- A memory-mapped file: a total map from physical byte offset to byte value. -/
def Mmap : Type := Nat → Nat

/-- Build an `Mmap` from a finite list of bytes (positions past the end read 0). -/
def listMmap (bytes : List Nat) : Mmap := fun i => bytes.getD i 0

/-- `u16::from_le_bytes([a, b])`. -/
def u16le (a b : Nat) : Nat := a + 256 * b

/-- `u64::from_le_bytes` of a list of (up to 8) bytes, little endian. -/
def le64 : List Nat → Nat
  | [] => 0
  | b :: rest => b + 256 * le64 rest

/-- Binary length with an explicit 64-step bound (a `u64` has 64 bits). -/
def bitsForAux : Nat → Nat → Nat
  | 0, _ => 0
  | _ + 1, 0 => 0
  | fuel + 1, r + 1 => bitsForAux fuel ((r + 1) / 2) + 1

/-- `u64::BITS - range.leading_zeros()` for a non-negative `range < 2^64`:
the number of bits needed to store `range`. -/
def bitsFor (range : Nat) : Nat := bitsForAux 64 range

/-- Two's-complement wrap-around of an integer into the `i64` range,
the behaviour of overflowing `i64` arithmetic in release-mode Rust. -/
def i64wrap (v : Int) : Int := (v + 2 ^ 63) % 2 ^ 64 - 2 ^ 63

/-! ## Logical/physical offset maps (C1 paged byte view)

From `src/pc_reader.rs` (`logic_to_phys`, also inlined in
`src/pc_reader/loader.rs::index_mmap`) and the inverse direction used at
`src/pc_reader/mod.rs:110-111` when converting `data_offset`. -/

/-- `fn logic_to_phys(pos) = pos + (pos / 1020) * 4` (src/pc_reader.rs:64). -/
def logicalToPhysical (pos : Nat) : Nat := pos + pos / 1020 * 4

/-- `logical_offset - (logical_offset / 1024) * 4` (src/pc_reader/mod.rs:111). -/
def physToLogical (pos : Nat) : Nat := pos - pos / 1024 * 4

/-- `logicalToPhysical` splits `L = 1020 * q + r` into physical `1024 * q + r`. -/
theorem logicalToPhysical_eq (l : Nat) :
    logicalToPhysical l = 1024 * (l / 1020) + l % 1020 := by
  unfold logicalToPhysical
  omega

theorem physToLogical_logicalToPhysical (l : Nat) :
    physToLogical (logicalToPhysical l) = l := by
  have h := logicalToPhysical_eq l
  have hr : l % 1020 < 1020 := Nat.mod_lt _ (by norm_num)
  have hdiv : (1024 * (l / 1020) + l % 1020) / 1024 = l / 1020 := by
    omega
  unfold physToLogical
  rw [h, hdiv]
  omega

theorem logicalToPhysical_mod_lt (l : Nat) :
    logicalToPhysical l % 1024 < 1020 := by
  have h := logicalToPhysical_eq l
  have hr : l % 1020 < 1020 := Nat.mod_lt _ (by norm_num)
  have hm : (1024 * (l / 1020) + l % 1020) % 1024 = l % 1020 := by
    omega
  rw [h, hm]
  exact hr

/-! ## Errors (src/error.rs)

Only the two variants produced by the modelled decode path are needed. -/

/-- `enum Error` of `src/error.rs`, restricted to the variants the binary
decode path can produce (`Invalid`, `Unimplemented`). -/
inductive Error
  | invalid (msg : String)
  | unimplemented (msg : String)
  deriving DecidableEq, Repr

/-- Is this an `Error::Invalid`? -/
def Error.isInvalid : Error → Bool
  | .invalid _ => true
  | _ => false

/-- Is this an `Error::Unimplemented`? -/
def Error.isUnimplemented : Error → Bool
  | .unimplemented _ => true
  | _ => false

/-! ## `index_mmap` (src/pc_reader/loader.rs:63-80)

Constants from the top of loader.rs: `ALIGNMENT_SIZE = 4`,
`PHYSICAL_PAGE_SIZE = 1024`, `LOGICAL_PAGE_SIZE = 1020`. -/

def ALIGNMENT_SIZE : Nat := 4
def PHYSICAL_PAGE_SIZE : Nat := 1024
def LOGICAL_PAGE_SIZE : Nat := PHYSICAL_PAGE_SIZE - ALIGNMENT_SIZE

/-- The physical bytes `mmap[start..start+len]`. -/
def physRange (mmap : Mmap) (start len : Nat) : List Nat :=
  (List.range len).map fun k => mmap (start + k)

/-- `fn index_mmap(mmap, start, end) -> &[u8]` (loader.rs:63-80): returns the
logical byte span `[start, end)`, copying across at most one page seam.
(The Rust version copies the two parts into a 16-byte scratch buffer; the
callers never request more than 16 bytes.) -/
def indexMmap (mmap : Mmap) (start end_ : Nat) : List Nat :=
  let pages_start := start / LOGICAL_PAGE_SIZE
  let pages_end := (end_ - 1) / LOGICAL_PAGE_SIZE
  if pages_start ≠ pages_end then
    let size := end_ - start
    let remaining := LOGICAL_PAGE_SIZE - start % LOGICAL_PAGE_SIZE
    let start1 := start + start / LOGICAL_PAGE_SIZE * ALIGNMENT_SIZE
    let start2 := start1 + remaining + ALIGNMENT_SIZE
    physRange mmap start1 remaining ++ physRange mmap start2 (size - remaining)
  else
    physRange mmap (start + pages_start * ALIGNMENT_SIZE) (end_ - start)

/-! ## Packet positions (src/pc_reader/loader.rs:7-57) -/

/-- `struct Position` (loader.rs:7-12): per-field cursor into the packet
stream.  `offset` is the logical offset of the *next* packet header, `index`
the field's position in the prototype, `current` the next logical byte of the
field's slice, `end_` the end of that slice. -/
structure Position where
  offset : Nat
  index : Nat
  current : Nat
  end_ : Nat
  deriving DecidableEq, Repr

/-- The `u16` slice length of bytestream `k` in the packet starting at
logical offset `off` (the loop body of loader.rs:40-49). -/
def sizeAt (mmap : Mmap) (off k : Nat) : Nat :=
  let data := indexMmap mmap (off + 6 + k * 2) (off + 6 + (k + 1) * 2)
  u16le (data.getD 0 0) (data.getD 1 0)

/-- `Position::load_next` (loader.rs:26-56).  Reads the 6-byte data-packet
header at `offset`; any first byte other than `1` is an `Invalid` error.
The compressor-restart flag `header[1] & 1` is bound to the unused
`_comp_restart_flag` in the source and has no effect.  On success the cursor
is rebased onto this field's slice in the new packet, carrying over the
unconsumed byte count `diff = current - end`. -/
def Position.loadNext (p : Position) (mmap : Mmap) : Except Error (Nat × Position) :=
  let header := indexMmap mmap p.offset (p.offset + 6)
  if header.getD 0 0 ≠ 1 then
    .error (.invalid ("only data headers (1) allowed, got " ++ toString (header.getD 0 0)))
  else
    let packet_length := u16le (header.getD 2 0) (header.getD 3 0) + 1
    let bytestream_count := u16le (header.getD 4 0) (header.getD 5 0)
    let block_current := 6 + bytestream_count * 2 +
      ((List.range (p.index + 1)).map (sizeAt mmap p.offset)).sum
    let block_size := sizeAt mmap p.offset p.index
    let diff := p.current - p.end_
    let end2 := p.offset + block_current
    .ok (diff, { offset := p.offset + packet_length, index := p.index,
                 current := end2 - block_size + diff, end_ := end2 })

/-- `Position::new` (loader.rs:15-24). -/
def Position.new (prototype_offset prototype_index : Nat) (mmap : Mmap) :
    Except Error Position := do
  let p : Position :=
    { offset := prototype_offset, index := prototype_index, current := 0, end_ := 0 }
  let (_, p') ← p.loadNext mmap
  pure p'

/-! ## Field loaders (src/pc_reader/loader.rs:82-212) -/

/-- `dst[start .. start + src.length] := src` on a fixed-size byte buffer. -/
def copyInto (dst : List Nat) (start : Nat) (src : List Nat) : List Nat :=
  dst.take start ++ src ++ dst.drop (start + src.length)

/-- `struct IntLoader` (loader.rs:82-88). -/
structure IntLoader where
  position : Position
  min : Int
  offset : Nat
  bits : Nat
  mask : Nat
  deriving DecidableEq, Repr

/-- `IntLoader::new` (loader.rs:91-108): `bits = 64 - (max - min).leading_zeros()`
and `mask = (1 << bits) - 1`.  The prototype guarantees `max > min`, so the
range is non-negative and `leading_zeros` counts the zeros of its value. -/
def IntLoader.new (prototype_offset prototype_index : Nat) (min max : Int)
    (mmap : Mmap) : Except Error IntLoader := do
  let range := max - min
  let bits := bitsFor range.toNat
  let mask := 2 ^ bits - 1
  let pos ← Position.new prototype_offset prototype_index mmap
  pure { position := pos, min := min, offset := 0, bits := bits, mask := mask }

/-- `IntLoader::load` (loader.rs:112-139).  Reads `ceil((offset+bits)/8)`
logical bytes into an 8-byte scratch, consumes `(offset+bits)/8` of them,
pulls the next packet when the slice is exhausted (unless `at_end`), and
returns `((le_u64(scratch) >> offset) & mask) as i64 + min`.  On an error the
partially mutated loader is returned alongside, as the Rust method mutates
`self` in place before failing. -/
def IntLoader.load (l : IntLoader) (mmap : Mmap) (at_end : Bool) :
    Except (Error × IntLoader) (Int × IntLoader) :=
  let end_offset := (l.offset + l.bits + 7) / 8
  let tmp := copyInto (List.replicate 8 0) 0
    (indexMmap mmap l.position.current (l.position.current + end_offset))
  let used_offset := (l.offset + l.bits) / 8
  let pos1 : Position := { l.position with current := l.position.current + used_offset }
  let next : Except (Error × IntLoader) (List Nat × Position) :=
    if pos1.end_ ≤ pos1.current ∧ at_end = false then
      match pos1.loadNext mmap with
      | .error e => .error (e, { l with position := pos1 })
      | .ok (diff, pos2) =>
        if 0 < diff then
          .ok (copyInto tmp (end_offset - diff)
            (indexMmap mmap (pos2.current - diff) pos2.current), pos2)
        else
          .ok (tmp, pos2)
    else
      .ok (tmp, pos1)
  match next with
  | .error e => .error e
  | .ok (tmp', pos') =>
    let uint_value := le64 tmp' >>> l.offset &&& l.mask
    let int_value := i64wrap ((uint_value : Int) + l.min)
    .ok (int_value, { l with position := pos', offset := (l.offset + l.bits) % 8 })

/-- `struct F64Loader` (loader.rs:142-144). -/
structure F64Loader where
  position : Position
  deriving DecidableEq, Repr

/-- `F64Loader::new` (loader.rs:147-151). -/
def F64Loader.new (prototype_offset prototype_index : Nat) (mmap : Mmap) :
    Except Error F64Loader := do
  let pos ← Position.new prototype_offset prototype_index mmap
  pure ⟨pos⟩

/-- `F64Loader::load` (loader.rs:155-175): consumes 8 logical bytes and
returns their little-endian bit pattern (`f64::from_le_bytes`). -/
def F64Loader.load (l : F64Loader) (mmap : Mmap) (at_end : Bool) :
    Except (Error × F64Loader) (Nat × F64Loader) :=
  let tmp := indexMmap mmap l.position.current (l.position.current + 8)
  let pos1 : Position := { l.position with current := l.position.current + 8 }
  let next : Except (Error × F64Loader) (List Nat × Position) :=
    if pos1.end_ ≤ pos1.current ∧ at_end = false then
      match pos1.loadNext mmap with
      | .error e => .error (e, ⟨pos1⟩)
      | .ok (diff, pos2) =>
        if 0 < diff then
          .ok (copyInto tmp (8 - diff)
            (indexMmap mmap (pos2.current - diff) pos2.current), pos2)
        else
          .ok (tmp, pos2)
    else
      .ok (tmp, pos1)
  match next with
  | .error e => .error e
  | .ok (tmp', pos') => .ok (le64 tmp', ⟨pos'⟩)

/-- `struct F32Loader` (loader.rs:178-180). -/
structure F32Loader where
  position : Position
  deriving DecidableEq, Repr

/-- `F32Loader::new` (loader.rs:183-187). -/
def F32Loader.new (prototype_offset prototype_index : Nat) (mmap : Mmap) :
    Except Error F32Loader := do
  let pos ← Position.new prototype_offset prototype_index mmap
  pure ⟨pos⟩

/-- `F32Loader::load` (loader.rs:190-211): consumes 4 logical bytes and
returns their little-endian bit pattern (`f32::from_le_bytes`). -/
def F32Loader.load (l : F32Loader) (mmap : Mmap) (at_end : Bool) :
    Except (Error × F32Loader) (Nat × F32Loader) :=
  let tmp := indexMmap mmap l.position.current (l.position.current + 4)
  let pos1 : Position := { l.position with current := l.position.current + 4 }
  let next : Except (Error × F32Loader) (List Nat × Position) :=
    if pos1.end_ ≤ pos1.current ∧ at_end = false then
      match pos1.loadNext mmap with
      | .error e => .error (e, ⟨pos1⟩)
      | .ok (diff, pos2) =>
        if 0 < diff then
          .ok (copyInto tmp (4 - diff)
            (indexMmap mmap (pos2.current - diff) pos2.current), pos2)
        else
          .ok (tmp, pos2)
    else
      .ok (tmp, pos1)
  match next with
  | .error e => .error e
  | .ok (tmp', pos') => .ok (le64 tmp', ⟨pos'⟩)

/-! ## Converters (src/pc_reader/converter.rs) and points

The decoders never branch on IEEE float values: they only move bit patterns
and build arithmetic expressions that are stored into the point.  Float
values are therefore kept symbolic: each constructor records exactly the
computation the corresponding converter performs. -/

/-- A symbolic `f32` value as stored into a point's color field. -/
inductive F32V
  /-- `f32::default()`, i.e. `0.0`. -/
  | zero
  /-- `UnitIntConverter` (converter.rs:20-24): `(v - min) as f32 / (max - min) as f32`. -/
  | unitInt (v mn mx : Int)
  deriving DecidableEq, Repr

/-- A symbolic `f64` value as stored into a point's cartesian field. -/
inductive F64V
  /-- `f64::default()`, i.e. `0.0`. -/
  | zero
  /-- `IdentityConverter` applied to an `F64Loader` value: the 64-bit pattern. -/
  | fromBits (bits : Nat)
  /-- `ScaledIntConverter` (converter.rs:9-13): `v as f64 * scale`
  (`scale` is the f64 scale's bit pattern). -/
  | ofScaledInt (v : Int) (scale : Nat)
  /-- `F32ToF64Converter` (converter.rs:41-45) applied to an `F32Loader`
  value: widening of the 32-bit pattern. -/
  | widenBits (bits : Nat)
  deriving DecidableEq, Repr

/-- `ScaledIntConverter::convert` (converter.rs:9-13). -/
def scaledIntConvert (scale : Nat) (v : Int) : F64V := .ofScaledInt v scale

/-- `UnitIntConverter::convert` (converter.rs:20-24). -/
def unitIntConvert (mn mx : Int) (v : Int) : F32V := .unitInt v mn mx

/-- `U8Converter::convert` (converter.rs:27-31): `v as u8`, i.e. the low
8 bits of the two's-complement representation of `v`. -/
def u8Convert (v : Int) : Nat := (v % 256).toNat

/-- Cartesian coordinates of a point (used by saver.rs; `point.rs` itself is
not under `src/`, the fields are those written by the savers). -/
structure CartesianCoordinate where
  x : F64V
  y : F64V
  z : F64V
  deriving DecidableEq, Repr

/-- Color of a point (used by saver.rs). -/
structure Color where
  red : F32V
  green : F32V
  blue : F32V
  deriving DecidableEq, Repr

/-- The output point structure.  `point.rs` is not under `src/`; the fields
and their `Default` values are the ones the savers (saver.rs) and the
iterator (`pc_reader/mod.rs`) read and write: `cartesian.{x,y,z}: f64`,
`color.{red,green,blue}: f32` and `cartesian_invalid: u8` (default 0). -/
structure Point where
  cartesian : CartesianCoordinate
  color : Color
  cartesian_invalid : Nat
  deriving DecidableEq, Repr

/-- `Point::default()`. -/
def Point.default : Point :=
  { cartesian := ⟨.zero, .zero, .zero⟩, color := ⟨.zero, .zero, .zero⟩,
    cartesian_invalid := 0 }

/-- Which cartesian saver: `CartesionXSaver` / `CartesionYSaver` /
`CartesionZSaver` (saver.rs:8-27). -/
inductive Axis
  | x
  | y
  | z
  deriving DecidableEq, Repr

/-- Which color saver: `ColorRedSaver` / `ColorGreenSaver` /
`ColorBlueSaver` (saver.rs:29-48). -/
inductive Chan
  | red
  | green
  | blue
  deriving DecidableEq, Repr

/-- The cartesian savers (saver.rs:8-27). -/
def saveCart (a : Axis) (p : Point) (v : F64V) : Point :=
  match a with
  | .x => { p with cartesian := { p.cartesian with x := v } }
  | .y => { p with cartesian := { p.cartesian with y := v } }
  | .z => { p with cartesian := { p.cartesian with z := v } }

/-- The color savers (saver.rs:29-48). -/
def saveColor (c : Chan) (p : Point) (v : F32V) : Point :=
  match c with
  | .red => { p with color := { p.color with red := v } }
  | .green => { p with color := { p.color with green := v } }
  | .blue => { p with color := { p.color with blue := v } }

/-- `CartesionInvalidSaver::save` (saver.rs:50-55). -/
def saveInvalid (p : Point) (v : Nat) : Point := { p with cartesian_invalid := v }

/-! ## Property readers (src/pc_reader/mod.rs)

One constructor per `(Loader, Converter, Saver)` triple bound by the match
in `PointCloudReader::new` (mod.rs:116-192). -/

/-- A boxed `dyn PropertyReader`: the closed set of loader/converter/saver
triples built at mod.rs:116-192. -/
inductive PropReader
  /-- Cartesian axis, `ScaledInteger`: `IntLoader` → `ScaledIntConverter` → axis saver. -/
  | cartScaled (axis : Axis) (l : IntLoader) (scale : Nat)
  /-- Cartesian axis, `Double`: `F64Loader` → `IdentityConverter` → axis saver. -/
  | cartDouble (axis : Axis) (l : F64Loader)
  /-- Cartesian axis, `Single`: `F32Loader` → `F32ToF64Converter` → axis saver. -/
  | cartSingle (axis : Axis) (l : F32Loader)
  /-- Color channel, `Integer`: `IntLoader` → `UnitIntConverter` → channel saver. -/
  | colorInt (chan : Chan) (l : IntLoader) (mn mx : Int)
  /-- `CartesianInvalidState`, `Integer`: `IntLoader` → `U8Converter` →
  `CartesionInvalidSaver` (mod.rs:186-190). -/
  | invalidState (l : IntLoader)
  deriving DecidableEq, Repr

/-- `GenPropertyReader::read` (mod.rs:74-79): load, convert, save.  On a load
error the partially mutated reader is kept, as in the Rust `&mut self`. -/
def readOne (r : PropReader) (mmap : Mmap) (p : Point) (at_end : Bool) :
    Except (Error × PropReader) (Point × PropReader) :=
  match r with
  | .cartScaled a l s =>
    match l.load mmap at_end with
    | .error (e, l') => .error (e, .cartScaled a l' s)
    | .ok (v, l') => .ok (saveCart a p (scaledIntConvert s v), .cartScaled a l' s)
  | .cartDouble a l =>
    match l.load mmap at_end with
    | .error (e, l') => .error (e, .cartDouble a l')
    | .ok (v, l') => .ok (saveCart a p (.fromBits v), .cartDouble a l')
  | .cartSingle a l =>
    match l.load mmap at_end with
    | .error (e, l') => .error (e, .cartSingle a l')
    | .ok (v, l') => .ok (saveCart a p (.widenBits v), .cartSingle a l')
  | .colorInt c l mn mx =>
    match l.load mmap at_end with
    | .error (e, l') => .error (e, .colorInt c l' mn mx)
    | .ok (v, l') => .ok (saveColor c p (unitIntConvert mn mx v), .colorInt c l' mn mx)
  | .invalidState l =>
    match l.load mmap at_end with
    | .error (e, l') => .error (e, .invalidState l')
    | .ok (v, l') => .ok (saveInvalid p (u8Convert v), .invalidState l')

/-- The reader loop of `next()` (mod.rs:207-211): run every property reader
in prototype order on the point; stop at the first error.  Readers before
the failing one keep their advanced state, readers after it are untouched. -/
def readAll : List PropReader → Mmap → Point → Bool →
    Except Error Point × List PropReader
  | [], _, p, _ => (.ok p, [])
  | r :: rs, mmap, p, ae =>
    match readOne r mmap p ae with
    | .error (e, r') => (.error e, r' :: rs)
    | .ok (p', r') =>
      let (res, rs') := readAll rs mmap p' ae
      (res, r' :: rs')

/-! ## Record metadata (src/record.rs) -/

/-- `enum RecordDataType` (record.rs:16-25).  Float bounds are kept as
optional bit patterns, the f64 scale as a bit pattern. -/
inductive RecordDataType
  | single (mn mx : Option Nat)
  | double (mn mx : Option Nat)
  | scaledInteger (mn mx : Int) (scale : Nat)
  | integer (mn mx : Int)
  deriving DecidableEq, Repr

/-- `enum RecordName` (record.rs:29-81). -/
inductive RecordName
  | cartesianX
  | cartesianY
  | cartesianZ
  | cartesianInvalidState
  | sphericalRange
  | sphericalAzimuth
  | sphericalElevation
  | sphericalInvalidState
  | intensity
  | isIntensityInvalid
  | colorRed
  | colorGreen
  | colorBlue
  | isColorInvalid
  | rowIndex
  | columnIndex
  | returnCount
  | returnIndex
  | timeStamp
  | isTimeStampInvalid
  deriving DecidableEq, Repr

/-- `struct Record` (record.rs:9-12). -/
structure Record where
  name : RecordName
  data_type : RecordDataType
  deriving DecidableEq, Repr

/-- `struct PointCloud` (src/pointcloud.rs), restricted to the fields the
decode path consumes: `file_offset`, `records` and `prototype` (the string
and bounds metadata is never read by the iterator). -/
structure PointCloud where
  file_offset : Nat
  records : Nat
  prototype : List Record
  deriving DecidableEq, Repr

/-! ## `mmap_paged::read` (src/mmap_paged.rs) -/

/-- `mmap_paged::read` (mmap_paged.rs:1-8): copy `len` logical bytes starting
at physical offset `offset`, taking `min(len, 1020 - offset % 1024)` payload
bytes per page and skipping the 4-byte tail.  The Rust loop needs at most one
extra iteration beyond `len` (a zero-length copy when starting exactly on a
checksum tail), hence fuel `len + 2`; for in-page start offsets the fuel is
never exhausted. -/
def mmapPagedRead (mmap : Mmap) : Nat → Nat → Nat → List Nat
  | 0, _, _ => []
  | _ + 1, 0, _ => []
  | fuel + 1, len, offset =>
    let avaible := min len (1020 - offset % 1024)
    physRange mmap offset avaible ++
      mmapPagedRead mmap fuel (len - avaible) (offset + avaible + 4)

/-! ## The point-cloud iterator (src/pc_reader/mod.rs) -/

/-- The state of `PointCloudReader` (mod.rs:83-89): descriptor, number of
points already read, and the per-field property readers.  The memory map is
passed separately (the Rust struct stores a shared reference to it). -/
structure PointCloudReader where
  pc : PointCloud
  read : Nat
  property_readers : List PropReader
  deriving DecidableEq, Repr

/-- One arm of the binding match of `PointCloudReader::new` (mod.rs:116-192).
`some (.ok none)` models `continue` (Intensity / RowIndex / ColumnIndex are
skipped), `none` models the `unimplemented!()` panic of mod.rs:191. -/
def buildOne (logical_offset index : Nat) (mmap : Mmap) (r : Record) :
    Option (Except Error (Option PropReader)) :=
  match r.name, r.data_type with
  | .cartesianX, .scaledInteger mn mx scale =>
    some ((IntLoader.new logical_offset index mn mx mmap).map
      fun l => some (.cartScaled .x l scale))
  | .cartesianX, .double _ _ =>
    some ((F64Loader.new logical_offset index mmap).map
      fun l => some (.cartDouble .x l))
  | .cartesianX, .single _ _ =>
    some ((F32Loader.new logical_offset index mmap).map
      fun l => some (.cartSingle .x l))
  | .cartesianY, .scaledInteger mn mx scale =>
    some ((IntLoader.new logical_offset index mn mx mmap).map
      fun l => some (.cartScaled .y l scale))
  | .cartesianY, .double _ _ =>
    some ((F64Loader.new logical_offset index mmap).map
      fun l => some (.cartDouble .y l))
  | .cartesianY, .single _ _ =>
    some ((F32Loader.new logical_offset index mmap).map
      fun l => some (.cartSingle .y l))
  | .cartesianZ, .scaledInteger mn mx scale =>
    some ((IntLoader.new logical_offset index mn mx mmap).map
      fun l => some (.cartScaled .z l scale))
  | .cartesianZ, .double _ _ =>
    some ((F64Loader.new logical_offset index mmap).map
      fun l => some (.cartDouble .z l))
  | .cartesianZ, .single _ _ =>
    some ((F32Loader.new logical_offset index mmap).map
      fun l => some (.cartSingle .z l))
  | .colorRed, .integer mn mx =>
    some ((IntLoader.new logical_offset index mn mx mmap).map
      fun l => some (.colorInt .red l mn mx))
  | .colorGreen, .integer mn mx =>
    some ((IntLoader.new logical_offset index mn mx mmap).map
      fun l => some (.colorInt .green l mn mx))
  | .colorBlue, .integer mn mx =>
    some ((IntLoader.new logical_offset index mn mx mmap).map
      fun l => some (.colorInt .blue l mn mx))
  | .intensity, _ => some (.ok none)
  | .rowIndex, _ => some (.ok none)
  | .columnIndex, _ => some (.ok none)
  | .cartesianInvalidState, .integer mn mx =>
    some ((IntLoader.new logical_offset index mn mx mmap).map
      fun l => some (.invalidState l))
  | _, _ => none

/-- The construction loop of `PointCloudReader::new` (mod.rs:115-194). -/
def buildReaders (logical_offset : Nat) (mmap : Mmap) :
    List Record → Nat → Option (Except Error (List PropReader))
  | [], _ => some (.ok [])
  | r :: rest, index =>
    match buildOne logical_offset index mmap r with
    | none => none
    | some (.error e) => some (.error e)
    | some (.ok pr) =>
      match buildReaders logical_offset mmap rest (index + 1) with
      | none => none
      | some (.error e) => some (.error e)
      | some (.ok prs) =>
        some (.ok (match pr with | none => prs | some x => x :: prs))

/-- `PointCloudReader::new` (mod.rs:92-197): read the 32-byte CV section
header through `mmap_paged::read`, validate it, convert `data_offset` from
physical to logical coordinates and build the property readers.
`none` models the `unimplemented!()` panic for unhandled prototype fields. -/
def PointCloudReader.new (pc : PointCloud) (mmap : Mmap) :
    Option (Except Error PointCloudReader) :=
  let buffer := mmapPagedRead mmap 34 32 pc.file_offset
  let section_id := buffer.getD 0 0
  let section_length := le64 ((buffer.drop 8).take 8)
  let data_offset := le64 ((buffer.drop 16).take 8)
  if section_id ≠ 1 then
    some (.error (.invalid "Section ID of the compressed vector section header is not 1"))
  else if section_length % 4 ≠ 0 then
    some (.error (.invalid "Section length is not aligned and a multiple of four"))
  else
    let logical_offset := data_offset - data_offset / 1024 * 4
    match buildReaders logical_offset mmap pc.prototype 0 with
    | none => none
    | some (.error e) => some (.error e)
    | some (.ok prs) =>
      some (.ok { pc := pc, read := 0, property_readers := prs })

/-- The loop body of `Iterator::next` for `PointCloudReader`
(mod.rs:203-222), with the loop guard `read < records` carried as the
structural gas `gas = records - read` (the guard holds iff `gas > 0`, and
each iteration increments `read`, keeping the equation in the recursive
call): decode one point; skip it (and loop) when its `cartesian_invalid`
field is non-zero; return the first error of a property reader. -/
def nextItemGo : Nat → Mmap → PointCloudReader →
    Option (Except Error Point × PointCloudReader)
  | 0, _, _ => none
  | gas + 1, mmap, s =>
    let at_end := decide (s.pc.records - 1 ≤ s.read)
    match readAll s.property_readers mmap Point.default at_end with
    | (.error e, rs') => some (.error e, { s with property_readers := rs' })
    | (.ok p, rs') =>
      let s' : PointCloudReader :=
        { s with property_readers := rs', read := s.read + 1 }
      if p.cartesian_invalid ≠ 0 then nextItemGo gas mmap s'
      else some (.ok p, s')

/-- `Iterator::next` for `PointCloudReader` (mod.rs:203-222). -/
def nextItem (mmap : Mmap) (s : PointCloudReader) :
    Option (Except Error Point × PointCloudReader) :=
  nextItemGo (s.pc.records - s.read) mmap s

/-- The item produced by the `(n+1)`-st call of `next()` starting from `s`,
together with the state after it. -/
def nthItem (mmap : Mmap) (s : PointCloudReader) :
    Nat → Option (Except Error Point × PointCloudReader)
  | 0 => nextItem mmap s
  | n + 1 =>
    match nextItem mmap s with
    | some (_, s') => nthItem mmap s' n
    | none => none

/-- The full iteration of `next()` (mod.rs:203-222) until `None` or the
first error, with the loop guard carried as gas exactly as in `nextItemGo`:
the list of `Ok` points, the number of records skipped because
`cartesian_invalid != 0`, and the terminal error if one occurred. -/
def iterRunGo : Nat → Mmap → PointCloudReader →
    List Point × Nat × Option Error
  | 0, _, _ => ([], 0, none)
  | gas + 1, mmap, s =>
    let at_end := decide (s.pc.records - 1 ≤ s.read)
    match readAll s.property_readers mmap Point.default at_end with
    | (.error e, _) => ([], 0, some e)
    | (.ok p, rs') =>
      let s' : PointCloudReader :=
        { s with property_readers := rs', read := s.read + 1 }
      let rest := iterRunGo gas mmap s'
      if p.cartesian_invalid ≠ 0 then (rest.1, rest.2.1 + 1, rest.2.2)
      else (p :: rest.1, rest.2.1, rest.2.2)

/-- The full iteration of `next()` from state `s`. -/
def iterRun (mmap : Mmap) (s : PointCloudReader) :
    List Point × Nat × Option Error :=
  iterRunGo (s.pc.records - s.read) mmap s

/-! ## `ByteStreamReadBuffer` (src/bs_read.rs) -/

/-- `struct ByteStreamReadBuffer` (bs_read.rs:3-7): a byte queue and a
sub-byte bit offset into its first byte. -/
structure ByteStreamReadBuffer where
  buffer : List Nat
  offset : Nat
  deriving DecidableEq, Repr

/-- `ByteStreamReadBuffer::available` (bs_read.rs:65-67). -/
def ByteStreamReadBuffer.available (b : ByteStreamReadBuffer) : Nat :=
  b.buffer.length * 8 - b.offset

/-- `ByteStreamReadBuffer::extract_int` (bs_read.rs:43-63).  The Rust loops
pop the first `used_offset` bytes and peek (without popping) the following
byte when `end_offset = used_offset + 1`; together they place the first
`end_offset` queue bytes into the 8-byte scratch `tmp`.  (For
`offset + bits > 64` the Rust scratch write would be out of bounds and
abort; callers keep `bits ≤ 56`, cf. the guard in bitpack.rs.) -/
def ByteStreamReadBuffer.extract_int (b : ByteStreamReadBuffer) (min max : Int) :
    Option (Int × ByteStreamReadBuffer) :=
  let range := max - min
  let bits := bitsFor range.toNat
  if b.available < bits then
    none
  else
    let mask : Nat := 2 ^ bits - 1
    let end_offset := (b.offset + bits + 7) / 8
    let used_offset := (b.offset + bits) / 8
    let tmp := copyInto (List.replicate 8 0) 0 (b.buffer.take end_offset)
    let uint_value := le64 tmp >>> b.offset &&& mask
    let int_value := i64wrap ((uint_value : Int) + min)
    some (int_value, ⟨b.buffer.drop used_offset, (b.offset + bits) % 8⟩)

/-! ## CRC32C (src/crc32.rs) and `E57::validate_crc` (src/e57.rs)

`Crc32::calculate` is in src; the table constructor `Crc32::new` is not
(only the tests that pin its values are), so the table is modelled from the
spec and cross-checked against the unit tests of crc32.rs below. -/

/-- One right-shift update step of the reflected Castagnoli polynomial. -/
def crcStep (x : Nat) : Nat :=
  if x % 2 = 1 then (x >>> 1) ^^^ 0x82F63B78 else x >>> 1

/-- `n`-fold iteration of `crcStep`. -/
def crcIter : Nat → Nat → Nat
  | 0, x => x
  | n + 1, x => crcIter n (crcStep x)

/-- Modelled from the spec: `Crc32::new` is not under `src/`.  Entry `i` of
the 256-entry Castagnoli table (§4.7: polynomial `0x1EDC6F41`, byte-wise
right-shift update, i.e. the reflected constant `0x82F63B78`): eight
shift-xor steps starting from `i`.  Cross-checked against the unit tests of
crc32.rs (see the `crc32_test_*` theorems). -/
def crcTable (i : Nat) : Nat := crcIter 8 i

/-- `Crc32::calculate` (crc32.rs:8-13):
`!data.iter().fold(!0u32, |sum, next| table[(sum ^ next) as u8] ^ (sum >> 8))`. -/
def crc32Calculate (data : List Nat) : Nat :=
  (data.foldl (fun sum next => crcTable ((sum ^^^ next) &&& 255) ^^^ sum >>> 8)
    0xFFFFFFFF) ^^^ 0xFFFFFFFF

/-- Big-endian `u32` of a list of 4 bytes. -/
def be32 (l : List Nat) : Nat := l.foldl (fun a b => a * 256 + b) 0

/-- The 4 big-endian bytes of a `u32`. -/
def be32Bytes (v : Nat) : List Nat :=
  [v >>> 24 &&& 255, v >>> 16 &&& 255, v >>> 8 &&& 255, v &&& 255]

/-- Modelled from the spec: the CRC-validating paged read used by
`E57::validate_crc` is not under `src/` (the `PagedReader` revision in
src/paged_reader.rs skips checksum tails without checking them; e57.rs was
written against the checking revision).  Per §4.6/§3: read one 1024-byte
page, compare CRC32C of its first 1020 bytes against the big-endian `u32`
in its last 4 bytes, fail with `Invalid` naming the page index on mismatch;
return the payload byte count, 0 at end of file. -/
def readPageChecked (file : List Nat) (page : Nat) : Except Error Nat :=
  if file.length ≤ page * 1024 then
    .ok 0
  else
    let payload := (file.drop (page * 1024)).take 1020
    let stored := be32 ((file.drop (page * 1024 + 1020)).take 4)
    if crc32Calculate payload ≠ stored then
      .error (.invalid ("Found invalid CRC for page " ++ toString page))
    else
      .ok 1020

/-- The loop of `E57::validate_crc` (e57.rs:59-64):
`while self.reader.read(&mut buffer)? == 0 {}` — the loop *continues* only
while a read returns zero bytes.  Fuel bounds the iteration count; for a
non-empty file the very first read returns 1020 (or fails), so the loop
stops after one iteration and the fuel case is unreachable (in Rust an
empty file would loop forever, but `PagedReader::new` rejects it). -/
def validateCrcLoop (file : List Nat) : Nat → Nat → Except Error Unit
  | 0, _ => .ok ()
  | fuel + 1, page =>
    match readPageChecked file page with
    | .error e => .error e
    | .ok n => if n = 0 then validateCrcLoop file fuel (page + 1) else .ok ()

/-- `E57::validate_crc` (e57.rs:56-66). -/
def validate_crc (file : List Nat) : Except Error Unit :=
  validateCrcLoop file (file.length / 1024 + 1) 0

/-! ## `PagedReader` (src/paged_reader.rs) -/

/-- The cursor state of `struct PagedReader` (paged_reader.rs:7-11) over a
physical file: the wrapped reader's position `pos` and the tracked in-page
`offset`.  `CHECKSUM_SIZE = 4`. -/
structure PagedReader where
  page_size : Nat
  pos : Nat
  offset : Nat
  deriving DecidableEq, Repr

/-- `file[pos .. pos + len]`. -/
def sliceAt (file : List Nat) (pos len : Nat) : List Nat :=
  (file.drop pos).take len

/-- The outcome of `PagedReader::read`: either the `unreachable!()` branch
(paged_reader.rs:76) aborts the process, or some bytes are produced. -/
inductive ReadOutcome
  | hitUnreachable
  | ok (data : List Nat) (r : PagedReader)
  deriving DecidableEq, Repr

/-- `PagedReader::seek_physical` (paged_reader.rs:44-48). -/
def PagedReader.seek_physical (r : PagedReader) (offset : Nat) : PagedReader :=
  { r with pos := offset, offset := offset % r.page_size }

/-- `PagedReader::read` (paged_reader.rs:69-88): when the in-page offset sits
exactly at the checksum tail, skip the 4 tail bytes; a position strictly
inside the tail is `unreachable!()`; otherwise read up to
`min(buf.len, page_size - 4 - offset)` bytes from the underlying reader
(which returns `min` of that and the remaining file). -/
def PagedReader.read (r : PagedReader) (file : List Nat) (buf_len : Nat) :
    ReadOutcome :=
  let r1 := if r.offset = r.page_size - 4 then
    { r with offset := 0, pos := r.pos + 4 }
  else r
  if r.page_size - 4 < r1.offset then
    .hitUnreachable
  else
    let readable := min buf_len (r.page_size - 4 - r1.offset)
    let n := min readable (file.length - r1.pos)
    .ok (sliceAt file r1.pos n) ({ r1 with pos := r1.pos + n, offset := r1.offset + n })

/-! ## Concrete scenarios used as counterexamples and witnesses -/

/-- Is a `load_next` result an `Invalid` error? -/
def isInvalidResult (r : Except Error (Nat × Position)) : Bool :=
  match r with
  | .error e => e.isInvalid
  | .ok _ => false

/-- Is a `load_next` result an `Unimplemented` error? -/
def isUnimplementedResult (r : Except Error (Nat × Position)) : Bool :=
  match r with
  | .error e => e.isUnimplemented
  | .ok _ => false

/-- C1 scenario: a CV section at physical offset 0 followed by one data
packet holding a single `CartesianInvalidState` record whose decoded value
is 1 (an invalid point). -/
def bytesC1 : List Nat :=
  [1, 0, 0, 0, 0, 0, 0, 0,
   0, 0, 0, 0, 0, 0, 0, 0,
   32, 0, 0, 0, 0, 0, 0, 0,
   0, 0, 0, 0, 0, 0, 0, 0,
   1, 0, 15, 0, 1, 0,
   1, 0,
   1,
   0, 0, 0, 0, 0, 0, 0]

/-- C1 scenario: one point cloud with one record and a prototype holding
only `CartesianInvalidState` as `Integer { min: 0, max: 255 }`. -/
def pcC1 : PointCloud := ⟨0, 1, [⟨.cartesianInvalidState, .integer 0 255⟩]⟩

/-- The reader state `PointCloudReader::new` builds for `pcC1`/`bytesC1`. -/
def stC1 : PointCloudReader :=
  ⟨pcC1, 0, [.invalidState ⟨⟨48, 0, 40, 41⟩, 0, 0, 8, 255⟩]⟩

/-- C8 scenario: one data packet with a 1-byte `CartesianInvalidState`
slice, followed at offset 12 by a packet whose first byte is 3. -/
def bytesC8 : List Nat :=
  [1, 0, 11, 0, 1, 0, 1, 0, 0, 0, 0, 0, 3, 0, 0, 0, 0, 0]

/-- C8 scenario: reader state over `bytesC8` with 3 records pending. -/
def sC8 : PointCloudReader :=
  ⟨⟨0, 3, [⟨.cartesianInvalidState, .integer 0 255⟩]⟩, 0,
    [.invalidState ⟨⟨12, 0, 8, 9⟩, 0, 0, 8, 255⟩]⟩

/-- C4 scenario: a packet whose `Integer { min: 0, max: 5 }` slice holds the
byte 7, a bit pattern outside the declared range. -/
def bytesC4 : List Nat := [1, 0, 11, 0, 1, 0, 2, 0, 7, 0, 0, 0]

/-- The loader `IntLoader::new(0, 0, 0, 5)` builds over `bytesC4`. -/
def lC4 : IntLoader := ⟨⟨12, 0, 8, 10⟩, 0, 0, 3, 7⟩

/-- `lC4` after one `load`. -/
def lC4b : IntLoader := ⟨⟨12, 0, 8, 10⟩, 0, 3, 3, 7⟩

/-- C7 scenario: two packets with 1-byte slices of a 3-bit integer field;
the second packet's flags byte (offset 13) has the compressor-restart bit
set. -/
def bytesC7 : List Nat :=
  [1, 0, 11, 0, 1, 0, 1, 0, 181, 0, 0, 0,
   1, 1, 11, 0, 1, 0, 1, 0, 204, 0, 0, 0]

/-- The loader `IntLoader::new(0, 0, 0, 5)` builds over `bytesC7`. -/
def lC7 : IntLoader := ⟨⟨12, 0, 8, 9⟩, 0, 0, 3, 7⟩

/-- `lC7` after one `load` (bits 0..3 of byte 181). -/
def lC7b : IntLoader := ⟨⟨12, 0, 8, 9⟩, 0, 3, 3, 7⟩

/-- `lC7b` after one `load` (bits 3..6 of byte 181). -/
def lC7c : IntLoader := ⟨⟨12, 0, 8, 9⟩, 0, 6, 3, 7⟩

/-- `lC7c` after the `load` that crosses into the second packet. -/
def lC7d : IntLoader := ⟨⟨24, 0, 20, 21⟩, 0, 1, 3, 7⟩

/-- C9 scenario: a packet whose `Integer { min: 0, max: 300 }` slice holds
the bytes `[44, 1]`, the 9-bit pattern of 300. -/
def bytesC9 : List Nat := [1, 0, 11, 0, 1, 0, 3, 0, 44, 1, 0, 0]

/-- The loader `IntLoader::new(0, 0, 0, 300)` builds over `bytesC9`. -/
def lC9 : IntLoader := ⟨⟨12, 0, 8, 11⟩, 0, 0, 9, 511⟩

/-- `lC9` after one `load`. -/
def lC9b : IntLoader := ⟨⟨12, 0, 9, 11⟩, 0, 1, 9, 511⟩

/-- C2 scenario: a correctly checksummed all-zero page. -/
def goodPage0 : List Nat :=
  List.replicate 1020 0 ++ be32Bytes (crc32Calculate (List.replicate 1020 0))

/-- C2 scenario: an all-zero payload whose stored CRC has its lowest bit
flipped (so it cannot match the payload's CRC). -/
def badPage1 : List Nat :=
  List.replicate 1020 0 ++ be32Bytes (crc32Calculate (List.replicate 1020 0) ^^^ 1)

/-- C2 scenario: a two-page file whose second page has a bad checksum. -/
def fileC2 : List Nat := goodPage0 ++ badPage1

/-- The error produced for `bytesC8` when the loader reaches the packet
whose first byte is 3. -/
def eC8 : Error := .invalid ("only data headers (1) allowed, got " ++ toString 3)

/-- `sC8` after its first (failing) `next()`. -/
def sC8b : PointCloudReader :=
  ⟨⟨0, 3, [⟨.cartesianInvalidState, .integer 0 255⟩]⟩, 0,
    [.invalidState ⟨⟨12, 0, 9, 9⟩, 0, 0, 8, 255⟩]⟩

/-- `sC8b` after one more (failing) `next()`. -/
def sC8c : PointCloudReader :=
  ⟨⟨0, 3, [⟨.cartesianInvalidState, .integer 0 255⟩]⟩, 0,
    [.invalidState ⟨⟨12, 0, 10, 9⟩, 0, 0, 8, 255⟩]⟩

/-- An iterator state whose property-reader chain fails on every re-run,
for any input point: the shape a state has right after a reader error. -/
def stuck (mmap : Mmap) (s : PointCloudReader) : Prop :=
  ∀ q : Point, ∃ e rs',
    readAll s.property_readers mmap q (decide (s.pc.records - 1 ≤ s.read)) =
      (.error e, rs')

/-- C10 scenario: a fresh paged reader over an 8-byte file. -/
def rC10 : PagedReader := ⟨1024, 0, 0⟩

/-- C10 scenario: the file contents. -/
def fileC10 : List Nat := List.replicate 8 0

/-! # Theorems -/

/-! ## Arithmetic helpers -/

theorem i64wrap_eq_self {v : Int} (h1 : -(2 ^ 63) ≤ v) (h2 : v < 2 ^ 63) :
    i64wrap v = v := by
  unfold i64wrap
  rw [Int.emod_eq_of_lt (by omega) (by omega)]
  omega

theorem le64_replicate_zero (k : Nat) : le64 (List.replicate k 0) = 0 := by
  induction k with
  | zero => rfl
  | succ k ih => simp [List.replicate, le64, ih]

theorem le64_append_zeros (l : List Nat) (k : Nat) :
    le64 (l ++ List.replicate k 0) = le64 l := by
  induction l with
  | nil => simp [le64, le64_replicate_zero]
  | cons b t ih => simp [le64, ih]

theorem drop_replicate_zero (k n : Nat) :
    List.drop k (List.replicate n (0 : Nat)) = List.replicate (n - k) 0 := by
  induction k generalizing n with
  | zero => rfl
  | succ k ih =>
    cases n with
    | zero => simp
    | succ n => simp [List.replicate, ih]

theorem copyInto_zeros (src : List Nat) :
    copyInto (List.replicate 8 0) 0 src = src ++ List.replicate (8 - src.length) 0 := by
  unfold copyInto
  rw [show ((List.replicate 8 (0 : Nat)).take 0) = [] from rfl]
  rw [show (0 + src.length) = src.length by omega]
  rw [drop_replicate_zero]
  simp

theorem le64_copyInto_zeros (src : List Nat) :
    le64 (copyInto (List.replicate 8 0) 0 src) = le64 src := by
  rw [copyInto_zeros, le64_append_zeros]

/-! ## C5: logical/physical round trip -/

/-- **C5.** For every logical offset `L`, the physical mapping
`P = L + (L / 1020) * 4` composed with the inverse mapping
`L' = P - (P / 1024) * 4` returns `L`, and `P % 1024 < 1020`: the mapped
position never lands in a page's 4-byte checksum tail. -/
theorem claim_C5_logical_physical_roundtrip (l : Nat) :
    physToLogical (logicalToPhysical l) = l ∧ logicalToPhysical l % 1024 < 1020 :=
  ⟨physToLogical_logicalToPhysical l, logicalToPhysical_mod_lt l⟩

/-! ## C3: non-data packets -/

/-- **C3 counterexample.**  The claim says a packet whose first byte is 0
(index packet) or 2 (ignored packet) fails with `Unimplemented`; in
`Position::load_next` (loader.rs:28-33) *every* first byte other than 1 —
including 0 and 2 — produces an `Invalid` error, and `Unimplemented` is
never produced. -/
theorem claim_C3_counterexample :
    isInvalidResult (Position.loadNext ⟨0, 0, 0, 0⟩ (listMmap [0])) = true ∧
    isUnimplementedResult (Position.loadNext ⟨0, 0, 0, 0⟩ (listMmap [0])) = false ∧
    isInvalidResult (Position.loadNext ⟨0, 0, 0, 0⟩ (listMmap [2])) = true ∧
    isUnimplementedResult (Position.loadNext ⟨0, 0, 0, 0⟩ (listMmap [2])) = false :=
  ⟨rfl, rfl, rfl, rfl⟩

/-- **C3 (amended).**  When the first byte of a packet header is any value
different from 1 — whether 0 (index packet), 2 (ignored packet) or any
other value such as 3 — decoding fails with an `Invalid` error carrying
the offending byte; `Unimplemented` is never produced for packet types. -/
theorem claim_C3_nondata_packet_invalid (p : Position) (mmap : Mmap)
    (h : (indexMmap mmap p.offset (p.offset + 6)).getD 0 0 ≠ 1) :
    p.loadNext mmap = .error (.invalid ("only data headers (1) allowed, got "
      ++ toString ((indexMmap mmap p.offset (p.offset + 6)).getD 0 0))) := by
  simp only [Position.loadNext]
  split
  · rfl
  · rename_i hcond
    exact absurd h hcond

/-- Witness for C3: a packet starting with byte 3 at offset 0. -/
theorem claim_C3_witness :
    ((indexMmap (listMmap [3]) 0 6).getD 0 0 ≠ 1) ∧
    Position.loadNext ⟨0, 0, 0, 0⟩ (listMmap [3]) =
      .error (.invalid ("only data headers (1) allowed, got "
        ++ toString ((indexMmap (listMmap [3]) 0 6).getD 0 0))) :=
  ⟨by decide, claim_C3_nondata_packet_invalid ⟨0, 0, 0, 0⟩ (listMmap [3]) (by decide)⟩

/-! ## C4: integer range checking -/

/-- **C4 counterexample.**  The claim says every value the integer loader
produces satisfies `min ≤ V ≤ max` and out-of-range bit patterns surface an
`Invalid` error.  With `Integer { min: 0, max: 5 }` (3 bits, mask 7) the bit
pattern 7 decodes to 7 > 5 and is returned as `Ok`; `IntLoader::load`
(loader.rs:112-139) contains no range check. -/
theorem claim_C4_counterexample :
    IntLoader.new 0 0 0 5 (listMmap bytesC4) = .ok lC4 ∧
    lC4.load (listMmap bytesC4) false = .ok (7, lC4b) ∧
    ¬ ((7 : Int) ≤ 5) :=
  ⟨rfl, rfl, by decide⟩

/-- **C4 (amended).**  Every value `V` the integer loader produces satisfies
`min ≤ V ≤ min + 2^bits - 1` where `bits = 64 - (max-min).leading_zeros()`
(so the upper bound is `min + mask ≥ max`, not `max` itself); bit patterns
in `(max, min + mask]` are returned as ordinary `Ok` values and no
`Invalid` error is raised.  Stated for any loader whose mask invariant
`mask = 2^bits - 1` holds (as established by `IntLoader::new` and preserved
by `load`), assuming the `i64` addition `uint + min` does not overflow. -/
theorem claim_C4_decoded_value_bounds (l : IntLoader) (mmap : Mmap) (ae : Bool)
    (v : Int) (l' : IntLoader)
    (hmask : l.mask = 2 ^ l.bits - 1)
    (hlo : -(2 ^ 63) ≤ l.min) (hhi : l.min + (2 ^ l.bits - 1) < 2 ^ 63)
    (h : l.load mmap ae = .ok (v, l')) :
    l.min ≤ v ∧ v ≤ l.min + ((2 : Int) ^ l.bits - 1) ∧
    l'.min = l.min ∧ l'.bits = l.bits ∧ l'.mask = l.mask := by
  have hb : (0 : Int) < 2 ^ l.bits := by positivity
  simp only [IntLoader.load] at h
  split at h
  · exact absurd h (by simp)
  · rename_i tmp' pos' hnext
    rw [Except.ok.injEq, Prod.mk.injEq] at h
    obtain ⟨hv, hl'⟩ := h
    have hle : le64 tmp' >>> l.offset &&& l.mask ≤ l.mask := Nat.and_le_right
    have hcast : ((2 ^ l.bits - 1 : Nat) : Int) = (2 : Int) ^ l.bits - 1 := by
      rw [Nat.cast_sub Nat.one_le_two_pow]
      push_cast
      ring
    have hleN : ((le64 tmp' >>> l.offset &&& l.mask : Nat) : Int) ≤ (2 : Int) ^ l.bits - 1 := by
      calc ((le64 tmp' >>> l.offset &&& l.mask : Nat) : Int)
          ≤ (l.mask : Int) := by exact_mod_cast hle
        _ = ((2 ^ l.bits - 1 : Nat) : Int) := by rw [hmask]
        _ = (2 : Int) ^ l.bits - 1 := hcast
    have h0 : (0 : Int) ≤ ((le64 tmp' >>> l.offset &&& l.mask : Nat) : Int) := by
      positivity
    have hwrap : i64wrap (((le64 tmp' >>> l.offset &&& l.mask : Nat) : Int) + l.min)
        = ((le64 tmp' >>> l.offset &&& l.mask : Nat) : Int) + l.min :=
      i64wrap_eq_self (by linarith) (by linarith)
    subst hv
    rw [hwrap]
    refine ⟨by linarith, by linarith, ?_, ?_, ?_⟩ <;> rw [← hl']

/-- Witness for C4 (amended): the out-of-range decode of the counterexample
scenario stays within `[min, min + mask] = [0, 7]`. -/
theorem claim_C4_witness :
    (lC4.mask = 2 ^ lC4.bits - 1 ∧ -(2 ^ 63) ≤ lC4.min ∧
      lC4.min + (2 ^ lC4.bits - 1) < 2 ^ 63 ∧
      lC4.load (listMmap bytesC4) false = .ok (7, lC4b)) ∧
    (lC4.min ≤ 7 ∧ (7 : Int) ≤ lC4.min + ((2 : Int) ^ lC4.bits - 1) ∧
      lC4b.min = lC4.min ∧ lC4b.bits = lC4.bits ∧ lC4b.mask = lC4.mask) :=
  ⟨⟨by decide, by decide, by decide, rfl⟩,
    claim_C4_decoded_value_bounds lC4 (listMmap bytesC4) false 7 lC4b
      (by decide) (by decide) (by decide) rfl⟩

/-! ## C7: the compressor-restart flag -/

/-- **C7 counterexample.**  The claim says that when a data packet's flags
byte has the restart bit set, every loader resets its sub-byte bit offset to
0 for that packet.  Over `bytesC7` the third 3-bit load crosses into the
second packet (whose flags byte 181`[13] = 1` has the restart bit set), yet
the loader's bit offset afterwards is `(6 + 3) % 8 = 1`, not 0: loader.rs:34
binds the flag to the unused `_comp_restart_flag` and ignores it. -/
theorem claim_C7_counterexample :
    IntLoader.new 0 0 0 5 (listMmap bytesC7) = .ok lC7 ∧
    lC7.load (listMmap bytesC7) false = .ok (5, lC7b) ∧
    lC7b.load (listMmap bytesC7) false = .ok (6, lC7c) ∧
    lC7c.load (listMmap bytesC7) false = .ok (2, lC7d) ∧
    bytesC7.getD 13 0 &&& 1 = 1 ∧
    lC7c.position.end_ = 9 ∧ lC7d.position.end_ = 21 ∧
    lC7d.offset = 1 ∧ (1 : Nat) ≠ 0 :=
  ⟨rfl, rfl, rfl, rfl, rfl, rfl, rfl, rfl, by decide⟩

/-- **C7 (amended).**  The compressor-restart flag is parsed but ignored:
after every successful `IntLoader::load` — including loads that pull a new
packet, whatever its flags byte — the sub-byte bit offset is
`(offset + bits) % 8`; it is never reset to 0 on a packet transition. -/
theorem claim_C7_offset_never_reset (l : IntLoader) (mmap : Mmap) (ae : Bool)
    (v : Int) (l' : IntLoader)
    (h : l.load mmap ae = .ok (v, l')) :
    l'.offset = (l.offset + l.bits) % 8 := by
  simp only [IntLoader.load] at h
  split at h
  · exact absurd h (by simp)
  · rw [Except.ok.injEq, Prod.mk.injEq] at h
    rw [← h.2]

/-- Witness for C7 (amended): the packet-crossing load of the
counterexample scenario, with the restart flag set, leaves offset
`(6 + 3) % 8 = 1`. -/
theorem claim_C7_witness :
    (lC7c.load (listMmap bytesC7) false = .ok (2, lC7d)) ∧
    lC7d.offset = (lC7c.offset + lC7c.bits) % 8 :=
  ⟨rfl, claim_C7_offset_never_reset lC7c (listMmap bytesC7) false 2 lC7d rfl⟩

/-! ## C9: CartesianInvalidState truncation -/

/-- **C9.**  For a `CartesianInvalidState` field bound as `Integer` with any
declared bounds, `PointCloudReader::new` (mod.rs:186-190) binds
`IntLoader → U8Converter → CartesionInvalidSaver`; the value stored into
the point's `cartesian_invalid` field is the decoded `i64` reduced modulo
`2^8` (`v as u8`), and decoded values outside `0..=255` wrap silently:
the read succeeds whenever the load does. -/
theorem claim_C9_invalid_state_truncates (mn mx : Int) (lo idx : Nat)
    (mmap : Mmap) (l l' : IntLoader) (p : Point) (ae : Bool) (v : Int)
    (h : l.load mmap ae = .ok (v, l')) :
    buildOne lo idx mmap ⟨.cartesianInvalidState, .integer mn mx⟩ =
      some ((IntLoader.new lo idx mn mx mmap).map fun ld => some (.invalidState ld)) ∧
    readOne (.invalidState l) mmap p ae =
      .ok ({ p with cartesian_invalid := u8Convert v }, .invalidState l') ∧
    (u8Convert v : Int) = v % 256 ∧ u8Convert v < 256 := by
  refine ⟨rfl, ?_, ?_, ?_⟩
  · simp [readOne, h, saveInvalid]
  · unfold u8Convert
    rw [Int.toNat_of_nonneg (Int.emod_nonneg v (by norm_num))]
  · unfold u8Convert
    have h1 : v % 256 < 256 := Int.emod_lt_of_pos v (by norm_num)
    have h2 : 0 ≤ v % 256 := Int.emod_nonneg v (by norm_num)
    omega

/-- Witness for C9: the decoded value 300 of the `bytesC9` scenario is
stored as `300 % 256 = 44` without an error. -/
theorem claim_C9_witness :
    (lC9.load (listMmap bytesC9) false = .ok (300, lC9b)) ∧
    readOne (.invalidState lC9) (listMmap bytesC9) Point.default false =
      .ok ({ Point.default with cartesian_invalid := u8Convert 300 },
        .invalidState lC9b) ∧
    u8Convert 300 = 44 :=
  ⟨rfl,
    (claim_C9_invalid_state_truncates 0 300 0 0 (listMmap bytesC9) lC9 lC9b
      Point.default false 300 rfl).2.1,
    rfl⟩

/-! ## C1: number of yielded points -/

/-- Error-free runs of the iterator loop yield one point or one skip per
remaining record. -/
theorem iterRunGo_count (gas : Nat) :
    ∀ (mmap : Mmap) (s : PointCloudReader) (pts : List Point) (sk : Nat),
      iterRunGo gas mmap s = (pts, sk, none) → pts.length + sk = gas := by
  induction gas with
  | zero =>
    intro mmap s pts sk h
    simp only [iterRunGo] at h
    injection h with h1 h23
    injection h23 with h2 h3
    simp [← h1, ← h2]
  | succ gas ih =>
    intro mmap s pts sk h
    simp only [iterRunGo] at h
    split at h
    · injection h with h1 h23
      injection h23 with h2 h3
      exact Option.noConfusion h3
    · rename_i p rs' hread
      rcases hgo : iterRunGo gas mmap
          { s with property_readers := rs', read := s.read + 1 } with ⟨pts', sk', t'⟩
      rw [hgo] at h
      split at h
      · injection h with h1 h23
        injection h23 with h2 h3
        subst h3
        have hc := ih mmap _ pts' sk' hgo
        simp only [← h1, ← h2]
        omega
      · injection h with h1 h23
        injection h23 with h2 h3
        subst h3
        have hc := ih mmap _ pts' sk' hgo
        simp only [← h1, ← h2]
        simp only [List.length_cons]
        omega

/-- **C1 counterexample.**  The claim says an error-free iteration yields
exactly `P.records` points.  Over `bytesC1` the single record decodes with
`cartesian_invalid = 1`; `next()` (mod.rs:214-216) silently skips it, so the
iterator built by `PointCloudReader::new` yields 0 points and no error while
`records = 1`. -/
theorem claim_C1_counterexample :
    PointCloudReader.new pcC1 (listMmap bytesC1) = some (.ok stC1) ∧
    iterRun (listMmap bytesC1) stC1 = ([], 1, none) ∧
    pcC1.records = 1 ∧ ([] : List Point).length ≠ pcC1.records :=
  ⟨rfl, rfl, rfl, by decide⟩

/-- **C1 (amended).**  For every point cloud descriptor whose iteration
produces no error, the iterator yields exactly `records − S` points, where
`S` is the number of records whose decoded point had a non-zero
`cartesian_invalid` field (those records are silently skipped); it yields
exactly `records` points only when `S = 0`. -/
theorem claim_C1_points_plus_skipped (mmap : Mmap) (s : PointCloudReader)
    (pts : List Point) (sk : Nat)
    (h : iterRun mmap s = (pts, sk, none)) :
    pts.length + sk = s.pc.records - s.read ∧
    (sk = 0 → pts.length = s.pc.records - s.read) :=
  have hc := iterRunGo_count (s.pc.records - s.read) mmap s pts sk h
  ⟨hc, fun hsk => by omega⟩

/-- Witness for C1 (amended): over the counterexample scenario the run is
error-free and `0 points + 1 skipped = 1 record`. -/
theorem claim_C1_witness :
    (iterRun (listMmap bytesC1) stC1 = ([], 1, none)) ∧
    (([] : List Point).length + 1 = stC1.pc.records - stC1.read ∧
      (1 = 0 → ([] : List Point).length = stC1.pc.records - stC1.read)) :=
  ⟨rfl, claim_C1_points_plus_skipped (listMmap bytesC1) stC1 [] 1 rfl⟩

/-! ## C8: an error is terminal -/

/-- Whether `load_next` fails is determined by the packet-header offset
alone, and the error carries the same message. -/
theorem loadNext_error_offset {mmap : Mmap} {p : Position} {e : Error}
    (h : p.loadNext mmap = .error e) (q : Position) (hoff : q.offset = p.offset) :
    q.loadNext mmap = .error e := by
  simp only [Position.loadNext] at h ⊢
  rw [hoff]
  split at h
  · rename_i hc
    rw [if_pos hc]
    exact h
  · exact Except.noConfusion h

/-- Once `IntLoader::load` has failed, re-running it fails with the same
error: the failing packet-header offset is unchanged and the slice cursor
only moves further past the slice end. -/
theorem intLoad_error_again {l : IntLoader} {mmap : Mmap} {ae : Bool}
    {e : Error} {l' : IntLoader} (h : l.load mmap ae = .error (e, l')) :
    ∃ l'', l'.load mmap ae = .error (e, l'') := by
  simp only [IntLoader.load] at h
  split at h
  · rename_i ep heq
    injection h with h1
    subst h1
    split at heq
    · rename_i hcond
      split at heq
      · rename_i e2 hln
        injection heq with h2
        injection h2 with h2a h2b
        subst h2a
        subst h2b
        have h1 := hcond.1
        have hc2 : l.position.end_ ≤
            l.position.current + (l.offset + l.bits) / 8 + (l.offset + l.bits) / 8 ∧
            ae = false := ⟨by omega, hcond.2⟩
        refine ⟨⟨⟨l.position.offset, l.position.index,
          l.position.current + (l.offset + l.bits) / 8 + (l.offset + l.bits) / 8,
          l.position.end_⟩, l.min, l.offset, l.bits, l.mask⟩, ?_⟩
        simp only [IntLoader.load]
        rw [if_pos hc2]
        rw [loadNext_error_offset hln ⟨l.position.offset, l.position.index,
          l.position.current + (l.offset + l.bits) / 8 + (l.offset + l.bits) / 8,
          l.position.end_⟩ rfl]
      · split at heq <;> exact Except.noConfusion heq
    · exact Except.noConfusion heq
  · exact Except.noConfusion h

/-- Once `F64Loader::load` has failed, re-running it fails with the same
error. -/
theorem f64Load_error_again {l : F64Loader} {mmap : Mmap} {ae : Bool}
    {e : Error} {l' : F64Loader} (h : l.load mmap ae = .error (e, l')) :
    ∃ l'', l'.load mmap ae = .error (e, l'') := by
  simp only [F64Loader.load] at h
  split at h
  · rename_i ep heq
    injection h with h1
    subst h1
    split at heq
    · rename_i hcond
      split at heq
      · rename_i e2 hln
        injection heq with h2
        injection h2 with h2a h2b
        subst h2a
        subst h2b
        have h1 := hcond.1
        have hc2 : l.position.end_ ≤ l.position.current + 8 + 8 ∧
            ae = false := ⟨by omega, hcond.2⟩
        refine ⟨⟨⟨l.position.offset, l.position.index,
          l.position.current + 8 + 8,
          l.position.end_⟩⟩, ?_⟩
        simp only [F64Loader.load]
        rw [if_pos hc2]
        rw [loadNext_error_offset hln ⟨l.position.offset, l.position.index,
          l.position.current + 8 + 8,
          l.position.end_⟩ rfl]
      · split at heq <;> exact Except.noConfusion heq
    · exact Except.noConfusion heq
  · exact Except.noConfusion h

/-- Once `F32Loader::load` has failed, re-running it fails with the same
error. -/
theorem f32Load_error_again {l : F32Loader} {mmap : Mmap} {ae : Bool}
    {e : Error} {l' : F32Loader} (h : l.load mmap ae = .error (e, l')) :
    ∃ l'', l'.load mmap ae = .error (e, l'') := by
  simp only [F32Loader.load] at h
  split at h
  · rename_i ep heq
    injection h with h1
    subst h1
    split at heq
    · rename_i hcond
      split at heq
      · rename_i e2 hln
        injection heq with h2
        injection h2 with h2a h2b
        subst h2a
        subst h2b
        have h1 := hcond.1
        have hc2 : l.position.end_ ≤ l.position.current + 4 + 4 ∧
            ae = false := ⟨by omega, hcond.2⟩
        refine ⟨⟨⟨l.position.offset, l.position.index,
          l.position.current + 4 + 4,
          l.position.end_⟩⟩, ?_⟩
        simp only [F32Loader.load]
        rw [if_pos hc2]
        rw [loadNext_error_offset hln ⟨l.position.offset, l.position.index,
          l.position.current + 4 + 4,
          l.position.end_⟩ rfl]
      · split at heq <;> exact Except.noConfusion heq
    · exact Except.noConfusion heq
  · exact Except.noConfusion h

/-- Once a property reader has failed, re-running it fails with the same
error, for any input point. -/
theorem readOne_error_again {r : PropReader} {mmap : Mmap} {p : Point}
    {ae : Bool} {e : Error} {r' : PropReader}
    (h : readOne r mmap p ae = .error (e, r')) :
    ∀ q : Point, ∃ r'', readOne r' mmap q ae = .error (e, r'') := by
  cases r with
  | cartScaled a l sc =>
    simp only [readOne] at h
    split at h
    · rename_i e0 l1 hld
      injection h with h1
      injection h1 with h1a h1b
      subst h1a
      subst h1b
      obtain ⟨l2, hl2⟩ := intLoad_error_again hld
      intro q
      exact ⟨.cartScaled a l2 sc, by simp only [readOne]; rw [hl2]⟩
    · exact Except.noConfusion h
  | cartDouble a l =>
    simp only [readOne] at h
    split at h
    · rename_i e0 l1 hld
      injection h with h1
      injection h1 with h1a h1b
      subst h1a
      subst h1b
      obtain ⟨l2, hl2⟩ := f64Load_error_again hld
      intro q
      exact ⟨.cartDouble a l2, by simp only [readOne]; rw [hl2]⟩
    · exact Except.noConfusion h
  | cartSingle a l =>
    simp only [readOne] at h
    split at h
    · rename_i e0 l1 hld
      injection h with h1
      injection h1 with h1a h1b
      subst h1a
      subst h1b
      obtain ⟨l2, hl2⟩ := f32Load_error_again hld
      intro q
      exact ⟨.cartSingle a l2, by simp only [readOne]; rw [hl2]⟩
    · exact Except.noConfusion h
  | colorInt c l mn mx =>
    simp only [readOne] at h
    split at h
    · rename_i e0 l1 hld
      injection h with h1
      injection h1 with h1a h1b
      subst h1a
      subst h1b
      obtain ⟨l2, hl2⟩ := intLoad_error_again hld
      intro q
      exact ⟨.colorInt c l2 mn mx, by simp only [readOne]; rw [hl2]⟩
    · exact Except.noConfusion h
  | invalidState l =>
    simp only [readOne] at h
    split at h
    · rename_i e0 l1 hld
      injection h with h1
      injection h1 with h1a h1b
      subst h1a
      subst h1b
      obtain ⟨l2, hl2⟩ := intLoad_error_again hld
      intro q
      exact ⟨.invalidState l2, by simp only [readOne]; rw [hl2]⟩
    · exact Except.noConfusion h

/-- Once the reader chain has failed, re-running the resulting chain fails
again, for any input point. -/
theorem readAll_error_again : ∀ {rs : List PropReader} {mmap : Mmap}
    {p : Point} {ae : Bool} {e : Error} {rs' : List PropReader},
    readAll rs mmap p ae = (.error e, rs') →
    ∀ q : Point, ∃ e₂ rs₂, readAll rs' mmap q ae = (.error e₂, rs₂) := by
  intro rs
  induction rs with
  | nil =>
    intro mmap p ae e rs' h q
    simp only [readAll] at h
    injection h with h1 h2
    exact Except.noConfusion h1
  | cons r t ih =>
    intro mmap p ae e rs' h q
    simp only [readAll] at h
    split at h
    · rename_i e0 r0 hro
      injection h with h1 h2
      subst h2
      obtain ⟨r1, hr1⟩ := readOne_error_again hro q
      refine ⟨e0, r1 :: t, ?_⟩
      simp only [readAll]
      rw [hr1]
    · rename_i p1 r1 hro
      rcases hta : readAll t mmap p1 ae with ⟨res, ts⟩
      rw [hta] at h
      simp only at h
      injection h with h1 h2
      subst h1
      subst h2
      cases hro2 : readOne r1 mmap q ae with
      | error pe =>
        obtain ⟨e3, r3⟩ := pe
        refine ⟨e3, r3 :: ts, ?_⟩
        simp only [readAll]
        rw [hro2]
      | ok po =>
        obtain ⟨q1, r3⟩ := po
        obtain ⟨e2, ts2, hts2⟩ := ih hta q1
        refine ⟨e2, r3 :: ts2, ?_⟩
        simp only [readAll]
        rw [hro2]
        dsimp only
        rw [hts2]

/-- Whatever state the iterator is in after producing an error item, its
reader chain is permanently failing. -/
theorem nextItemGo_error_stuck : ∀ (gas : Nat) {mmap : Mmap}
    {s : PointCloudReader} {e : Error} {s₁ : PointCloudReader},
    nextItemGo gas mmap s = some (.error e, s₁) → stuck mmap s₁ := by
  intro gas
  induction gas with
  | zero =>
    intro mmap s e s₁ h
    exact Option.noConfusion h
  | succ gas ih =>
    intro mmap s e s₁ h
    simp only [nextItemGo] at h
    split at h
    · rename_i e0 rs' hra
      injection h with h1
      injection h1 with h1a h1b
      subst h1b
      intro q
      exact readAll_error_again hra q
    · rename_i p rs' hra
      split at h
      · exact ih h
      · injection h with h1
        injection h1 with h1a h1b
        exact Except.noConfusion h1a

/-- A stuck state never yields a point: each further `next()` either ends
the iteration or produces another error and stays stuck. -/
theorem stuck_step {mmap : Mmap} {s : PointCloudReader} (hs : stuck mmap s)
    (gas : Nat) :
    nextItemGo gas mmap s = none ∨
      ∃ e s₁, nextItemGo gas mmap s = some (.error e, s₁) ∧ stuck mmap s₁ := by
  cases gas with
  | zero => exact Or.inl rfl
  | succ gas =>
    obtain ⟨e, rs', hra⟩ := hs Point.default
    refine Or.inr ⟨e, { s with property_readers := rs' }, ?_, ?_⟩
    · simp only [nextItemGo]
      rw [hra]
    · intro q
      exact readAll_error_again hra q

/-- A stuck state yields no `Ok` item at any later call. -/
theorem stuck_no_ok {mmap : Mmap} : ∀ (n : Nat) {s : PointCloudReader},
    stuck mmap s → ∀ {it : Except Error Point} {s₂ : PointCloudReader},
    nthItem mmap s n = some (it, s₂) → it.isOk = false := by
  intro n
  induction n with
  | zero =>
    intro s hs it s₂ h
    rcases stuck_step hs (s.pc.records - s.read) with hn | ⟨e, s₁, he, _⟩
    · rw [show nthItem mmap s 0 = nextItemGo (s.pc.records - s.read) mmap s from rfl,
        hn] at h
      exact Option.noConfusion h
    · rw [show nthItem mmap s 0 = nextItemGo (s.pc.records - s.read) mmap s from rfl,
        he] at h
      injection h with h1
      injection h1 with h1a h1b
      rw [← h1a]
      rfl
  | succ n ih =>
    intro s hs it s₂ h
    rcases stuck_step hs (s.pc.records - s.read) with hn | ⟨e, s₁, he, hs₁⟩
    · simp only [nthItem, nextItem] at h
      rw [hn] at h
      exact Option.noConfusion h
    · simp only [nthItem, nextItem] at h
      rw [he] at h
      exact ih hs₁ h

/-- **C8.**  Once the point-cloud iterator has yielded an error item, every
subsequent call to `next()` yields no further points (each later call
either returns `None` or surfaces an error again, never an `Ok` point). -/
theorem claim_C8_error_is_terminal (mmap : Mmap) (s : PointCloudReader)
    (e : Error) (s₁ : PointCloudReader)
    (h : nextItem mmap s = some (.error e, s₁)) :
    ∀ (n : Nat) (it : Except Error Point) (s₂ : PointCloudReader),
      nthItem mmap s₁ n = some (it, s₂) → it.isOk = false := by
  intro n it s₂ hn
  exact stuck_no_ok n (nextItemGo_error_stuck (s.pc.records - s.read) h) hn

/-- Witness for C8: over `bytesC8` the first `next()` fails on the packet
whose first byte is 3, and the following call again yields an error
item, not a point. -/
theorem claim_C8_witness :
    (nextItem (listMmap bytesC8) sC8 = some (.error eC8, sC8b)) ∧
    (nthItem (listMmap bytesC8) sC8b 0 = some (.error eC8, sC8c)) ∧
    (Except.error eC8 : Except Error Point).isOk = false :=
  ⟨rfl, rfl,
    claim_C8_error_is_terminal (listMmap bytesC8) sC8 eC8 sC8b rfl 0
      (.error eC8) sC8c rfl⟩

/-! ## C6: the bit-stream extractor -/

theorem intCast_two_pow_sub_one (b : Nat) :
    ((2 ^ b - 1 : Nat) : Int) = (2 : Int) ^ b - 1 := by
  rw [Nat.cast_sub Nat.one_le_two_pow]
  push_cast
  ring

/-- **C6.**  For a buffer state with bit offset `o ≤ 7` and an integer field
of width `bits` (with `o + bits ≤ 64`, the domain in which the 8-byte
scratch of bs_read.rs suffices; the spec caps unaligned widths at 56 bits),
when at least `bits` bits are available and the `i64` sum does not
overflow, `extract_int` reads `⌈(o + bits)/8⌉` bytes, returns
`((little-endian u64 of those bytes) >> o) & ((1 << bits) - 1)` plus `min`,
consumes exactly `(o + bits)/8` bytes (the trailing peeked byte stays in
the queue) and leaves the bit offset at `(o + bits) % 8`. -/
theorem claim_C6_extract_int (b : ByteStreamReadBuffer) (min max : Int)
    (hoff : b.offset ≤ 7)
    (hbits1 : 1 ≤ bitsFor (max - min).toNat)
    (hbits64 : b.offset + bitsFor (max - min).toNat ≤ 64)
    (havail : bitsFor (max - min).toNat ≤ b.available)
    (hlo : -(2 ^ 63) ≤ min)
    (hhi : min + ((2 : Int) ^ bitsFor (max - min).toNat - 1) < 2 ^ 63) :
    b.extract_int min max =
      some (((le64 (b.buffer.take ((b.offset + bitsFor (max - min).toNat + 7) / 8))
            >>> b.offset &&& (2 ^ bitsFor (max - min).toNat - 1) : Nat) : Int) + min,
        ⟨b.buffer.drop ((b.offset + bitsFor (max - min).toNat) / 8),
          (b.offset + bitsFor (max - min).toNat) % 8⟩) := by
  simp only [ByteStreamReadBuffer.extract_int]
  rw [if_neg (by omega : ¬ b.available < bitsFor (max - min).toNat)]
  rw [le64_copyInto_zeros]
  have hle : le64 (b.buffer.take ((b.offset + bitsFor (max - min).toNat + 7) / 8))
      >>> b.offset &&& (2 ^ bitsFor (max - min).toNat - 1)
      ≤ 2 ^ bitsFor (max - min).toNat - 1 := Nat.and_le_right
  have hleZ : ((le64 (b.buffer.take ((b.offset + bitsFor (max - min).toNat + 7) / 8))
      >>> b.offset &&& (2 ^ bitsFor (max - min).toNat - 1) : Nat) : Int)
      ≤ (2 : Int) ^ bitsFor (max - min).toNat - 1 := by
    calc ((le64 (b.buffer.take ((b.offset + bitsFor (max - min).toNat + 7) / 8))
        >>> b.offset &&& (2 ^ bitsFor (max - min).toNat - 1) : Nat) : Int)
        ≤ ((2 ^ bitsFor (max - min).toNat - 1 : Nat) : Int) := by exact_mod_cast hle
      _ = (2 : Int) ^ bitsFor (max - min).toNat - 1 := intCast_two_pow_sub_one _
  have h0 : (0 : Int) ≤ ((le64 (b.buffer.take ((b.offset + bitsFor (max - min).toNat + 7) / 8))
      >>> b.offset &&& (2 ^ bitsFor (max - min).toNat - 1) : Nat) : Int) := by positivity
  rw [i64wrap_eq_self (by linarith) (by linarith)]

/-- Witness for C6: buffer `[181, 204]` at bit offset 3, field
`Integer { min: 0, max: 5 }` (3 bits): one byte is read, none is consumed
beyond `(3+3)/8 = 0`, and the value is `(181 >> 3) & 7 = 6`. -/
theorem claim_C6_witness :
    ((⟨[181, 204], 3⟩ : ByteStreamReadBuffer).offset ≤ 7 ∧
      1 ≤ bitsFor ((5 : Int) - 0).toNat ∧
      (⟨[181, 204], 3⟩ : ByteStreamReadBuffer).offset + bitsFor ((5 : Int) - 0).toNat ≤ 64 ∧
      bitsFor ((5 : Int) - 0).toNat ≤ (⟨[181, 204], 3⟩ : ByteStreamReadBuffer).available) ∧
    ByteStreamReadBuffer.extract_int ⟨[181, 204], 3⟩ 0 5 =
      some (((le64 ([181, 204].take ((3 + bitsFor ((5 : Int) - 0).toNat + 7) / 8))
            >>> 3 &&& (2 ^ bitsFor ((5 : Int) - 0).toNat - 1) : Nat) : Int) + 0,
        ⟨[181, 204].drop ((3 + bitsFor ((5 : Int) - 0).toNat) / 8),
          (3 + bitsFor ((5 : Int) - 0).toNat) % 8⟩) ∧
    ByteStreamReadBuffer.extract_int ⟨[181, 204], 3⟩ 0 5 = some (6, ⟨[181, 204], 6⟩) :=
  ⟨⟨by decide, by decide, by decide, by decide⟩,
    claim_C6_extract_int ⟨[181, 204], 3⟩ 0 5 (by decide) (by decide) (by decide)
      (by decide) (by decide) (by decide),
    rfl⟩

/-! ## C2: CRC validation -/

/-- The `empty` unit test of crc32.rs: the spec-modelled table reproduces it. -/
theorem crc32_test_empty : crc32Calculate [] = 0 := rfl

/-- The `single_u64` unit test of crc32.rs: CRC32C of eight bytes 123. -/
theorem crc32_test_single_u64 :
    crc32Calculate (List.replicate 8 123) = 3786498929 := rfl

theorem crcStep_lt {x : Nat} (h : x < 2 ^ 32) : crcStep x < 2 ^ 32 := by
  unfold crcStep
  have hx : x >>> 1 < 2 ^ 32 := by
    rw [Nat.shiftRight_eq_div_pow]
    omega
  split
  · exact Nat.xor_lt_two_pow hx (by norm_num)
  · exact hx

theorem crcIter_lt : ∀ (n : Nat) {x : Nat}, x < 2 ^ 32 → crcIter n x < 2 ^ 32
  | 0, _, h => h
  | n + 1, _, h => crcIter_lt n (crcStep_lt h)

theorem crcTable_lt {i : Nat} (h : i < 2 ^ 32) : crcTable i < 2 ^ 32 :=
  crcIter_lt 8 h

theorem crcFold_lt : ∀ (data : List Nat) {acc : Nat}, acc < 2 ^ 32 →
    data.foldl (fun sum next => crcTable ((sum ^^^ next) &&& 255) ^^^ sum >>> 8) acc
      < 2 ^ 32
  | [], _, h => h
  | d :: rest, acc, h => by
    simp only [List.foldl]
    apply crcFold_lt rest
    apply Nat.xor_lt_two_pow
    · apply crcTable_lt
      have hand : (acc ^^^ d) &&& 255 ≤ 255 := Nat.and_le_right
      omega
    · rw [Nat.shiftRight_eq_div_pow]
      omega

theorem crc32Calculate_lt (data : List Nat) : crc32Calculate data < 2 ^ 32 := by
  unfold crc32Calculate
  exact Nat.xor_lt_two_pow (crcFold_lt data (by norm_num)) (by norm_num)

theorem and_255_eq_mod (n : Nat) : n &&& 255 = n % 256 := by
  have h := Nat.and_pow_two_sub_one_eq_mod n 8
  norm_num at h
  exact h

theorem be32_be32Bytes (v : Nat) (h : v < 2 ^ 32) : be32 (be32Bytes v) = v := by
  simp only [be32, be32Bytes, List.foldl]
  rw [and_255_eq_mod, and_255_eq_mod, and_255_eq_mod, and_255_eq_mod]
  rw [Nat.shiftRight_eq_div_pow, Nat.shiftRight_eq_div_pow, Nat.shiftRight_eq_div_pow]
  norm_num
  omega

theorem xor_one_ne (x : Nat) : x ^^^ 1 ≠ x := by
  intro h
  have h2 : (x ^^^ 1) ^^^ x = x ^^^ x := by rw [h]
  rw [Nat.xor_self] at h2
  rw [Nat.xor_comm x 1] at h2
  rw [Nat.xor_assoc, Nat.xor_self, Nat.xor_zero] at h2
  exact absurd h2 one_ne_zero

theorem be32Bytes_length (v : Nat) : (be32Bytes v).length = 4 := rfl

theorem goodPage0_length : goodPage0.length = 1024 := by
  simp [goodPage0, be32Bytes]

theorem badPage1_length : badPage1.length = 1024 := by
  simp [badPage1, be32Bytes]

theorem fileC2_length : fileC2.length = 2048 := by
  simp [fileC2, goodPage0_length, badPage1_length]

theorem fileC2_page0_payload :
    (fileC2.drop (0 * 1024)).take 1020 = List.replicate 1020 0 := by
  unfold fileC2 goodPage0
  rw [List.append_assoc]
  rw [show (0 * 1024 : Nat) = 0 from rfl, List.drop_zero]
  exact List.take_left' (by simp)

theorem fileC2_page0_stored :
    (fileC2.drop (0 * 1024 + 1020)).take 4 =
      be32Bytes (crc32Calculate (List.replicate 1020 0)) := by
  unfold fileC2 goodPage0
  rw [List.append_assoc]
  rw [show (0 * 1024 + 1020 : Nat) = 1020 from rfl]
  rw [List.drop_left' (by simp)]
  exact List.take_left' (be32Bytes_length _)

theorem fileC2_page1_payload :
    (fileC2.drop (1 * 1024)).take 1020 = List.replicate 1020 0 := by
  unfold fileC2
  rw [show (1 * 1024 : Nat) = 1024 from rfl]
  rw [List.drop_left' goodPage0_length]
  unfold badPage1
  exact List.take_left' (by simp)

theorem fileC2_page1_stored :
    (fileC2.drop (1 * 1024 + 1020)).take 4 =
      be32Bytes (crc32Calculate (List.replicate 1020 0) ^^^ 1) := by
  unfold fileC2
  rw [show (1 * 1024 + 1020 : Nat) = 1024 + 1020 from rfl]
  rw [← List.drop_drop]
  rw [List.drop_left' goodPage0_length]
  unfold badPage1
  rw [List.drop_left' (by simp)]
  exact List.take_of_length_le (by rw [be32Bytes_length])

/-- Page 0 of `fileC2` passes the CRC comparison. -/
theorem readPageChecked_fileC2_0 : readPageChecked fileC2 0 = .ok 1020 := by
  simp only [readPageChecked]
  rw [if_neg (by rw [fileC2_length]; norm_num)]
  rw [fileC2_page0_payload, fileC2_page0_stored,
    be32_be32Bytes _ (crc32Calculate_lt _)]
  rw [if_neg (by simp)]

/-- Page 1 of `fileC2` fails the CRC comparison, naming page index 1. -/
theorem readPageChecked_fileC2_1 :
    readPageChecked fileC2 1 =
      .error (.invalid ("Found invalid CRC for page " ++ toString 1)) := by
  simp only [readPageChecked]
  rw [if_neg (by rw [fileC2_length]; norm_num)]
  rw [fileC2_page1_payload, fileC2_page1_stored,
    be32_be32Bytes _ (Nat.xor_lt_two_pow (crc32Calculate_lt _) (by norm_num))]
  rw [if_pos (Ne.symm (xor_one_ne _))]

/-- When the first page read returns a non-zero byte count, the
`while == 0` loop of validate_crc stops at once with success. -/
theorem validateCrcLoop_stops {file : List Nat} (fuel page : Nat) {n : Nat}
    (h : readPageChecked file page = .ok n) (hn : n ≠ 0) :
    validateCrcLoop file (fuel + 1) page = .ok () := by
  simp only [validateCrcLoop]
  rw [h]
  simp [hn]

/-- **C2 (code bug).**  The claim says `validate_crc` scans every page and
fails with `Invalid` naming the first page whose stored big-endian CRC32C
mismatches.  The loop at e57.rs:59-64 is `while read(&mut buffer)? == 0 {}`:
it continues only *while* a read returns zero bytes, so it stops after the
first successful page read and never looks at later pages (its own doc
comment says "Iterate over the whole file").  Over the two-page `fileC2`,
page 1's checksum is wrong (second conjunct), yet `validate_crc` succeeds. -/
theorem claim_C2_validate_crc_misses_bad_page :
    validate_crc fileC2 = .ok () ∧
    readPageChecked fileC2 1 =
      .error (.invalid ("Found invalid CRC for page " ++ toString 1)) ∧
    fileC2.length = 2048 := by
  refine ⟨?_, readPageChecked_fileC2_1, fileC2_length⟩
  unfold validate_crc
  rw [fileC2_length]
  rw [show (2048 : Nat) / 1024 + 1 = 2 + 1 from rfl]
  exact validateCrcLoop_stops 2 0 readPageChecked_fileC2_0 (by norm_num)

/-! ## C10: paged reads and the checksum tail -/

theorem mod_add_of_lt {a i m : Nat} (h : a % m + i < m) :
    (a + i) % m = a % m + i := by
  have hd := Nat.div_add_mod a m
  have h2 : a + i = m * (a / m) + (a % m + i) := by omega
  rw [h2, Nat.mul_add_mod]
  exact Nat.mod_eq_of_lt h

theorem mod_add_tail {pos m : Nat} (hm : 0 < m) (h : pos % m = m - 4)
    (h4 : 4 ≤ m) : (pos + 4) % m = 0 := by
  have hd := Nat.div_add_mod pos m
  have hc : m * (pos / m + 1) = m * (pos / m) + m := by ring
  have h2 : pos + 4 = m * (pos / m + 1) := by rw [hc]; omega
  rw [h2, Nat.mul_mod_right]

/-- **C10.**  When the paged reader's in-page position `p = offset`
(synchronised with the physical position modulo the page size) satisfies
`p ≤ page_size - 4`, `read` succeeds and returns only payload bytes — every
byte it consumes sits at a physical position `q` with
`q % page_size < page_size - 4` — skipping the 4-byte checksum tail exactly
when `p = page_size - 4`; but if `seek_physical` places the position
strictly inside a tail (`p % page_size > page_size - 4`), the next `read`
hits the `unreachable!()` branch (paged_reader.rs:76) and panics instead of
returning an error. -/
theorem claim_C10_read_payload_or_panic (r : PagedReader) (file : List Nat)
    (blen : Nat) (hps : 4 < r.page_size) (hsync : r.offset = r.pos % r.page_size) :
    (r.offset ≤ r.page_size - 4 →
      ∃ data r', r.read file blen = .ok data r' ∧
        data = sliceAt file (r.pos + (if r.offset = r.page_size - 4 then 4 else 0))
          data.length ∧
        (∀ i, i < data.length →
          (r.pos + (if r.offset = r.page_size - 4 then 4 else 0) + i) % r.page_size
            < r.page_size - 4) ∧
        r'.offset = r'.pos % r.page_size ∧ r'.page_size = r.page_size) ∧
    (∀ p, r.page_size - 4 < p % r.page_size →
      (r.seek_physical p).read file blen = .hitUnreachable) := by
  constructor
  · intro hin
    by_cases htail : r.offset = r.page_size - 4
    · -- the cursor sits exactly on the checksum tail: skip 4 bytes first
      have hpos0 : (r.pos + 4) % r.page_size = 0 :=
        mod_add_tail (by omega) (by omega) (by omega)
      refine ⟨sliceAt file (r.pos + 4)
          (min (min blen (r.page_size - 4 - 0)) (file.length - (r.pos + 4))),
        ⟨r.page_size, r.pos + 4 +
          min (min blen (r.page_size - 4 - 0)) (file.length - (r.pos + 4)),
          0 + min (min blen (r.page_size - 4 - 0)) (file.length - (r.pos + 4))⟩,
        ?_, ?_, ?_, ?_, ?_⟩
      · unfold PagedReader.read
        rw [if_pos htail]
        rw [if_neg (by dsimp only; omega)]
      · rw [if_pos htail]
        have hlen : (sliceAt file (r.pos + 4)
            (min (min blen (r.page_size - 4 - 0)) (file.length - (r.pos + 4)))).length
            = min (min blen (r.page_size - 4 - 0)) (file.length - (r.pos + 4)) := by
          unfold sliceAt
          rw [List.length_take, List.length_drop]
          omega
        rw [hlen]
      · intro i hi
        rw [if_pos htail]
        have hlen : (sliceAt file (r.pos + 4)
            (min (min blen (r.page_size - 4 - 0)) (file.length - (r.pos + 4)))).length
            ≤ r.page_size - 4 := by
          unfold sliceAt
          rw [List.length_take, List.length_drop]
          omega
        have hmod : (r.pos + 4 + i) % r.page_size = 0 + i := by
          have h2 := mod_add_of_lt (a := r.pos + 4) (i := i) (m := r.page_size)
            (by rw [hpos0]; omega)
          rw [h2, hpos0]
        rw [hmod]
        omega
      · dsimp only
        have h2 := mod_add_of_lt (a := r.pos + 4)
          (i := min (min blen (r.page_size - 4 - 0)) (file.length - (r.pos + 4)))
          (m := r.page_size) (by rw [hpos0]; omega)
        rw [h2, hpos0]
      · rfl
    · -- strictly inside the payload: no skip
      refine ⟨sliceAt file r.pos
          (min (min blen (r.page_size - 4 - r.offset)) (file.length - r.pos)),
        ⟨r.page_size, r.pos +
          min (min blen (r.page_size - 4 - r.offset)) (file.length - r.pos),
          r.offset + min (min blen (r.page_size - 4 - r.offset)) (file.length - r.pos)⟩,
        ?_, ?_, ?_, ?_, ?_⟩
      · unfold PagedReader.read
        rw [if_neg htail]
        rw [if_neg (by omega)]
      · rw [if_neg htail]
        have hlen : (sliceAt file r.pos
            (min (min blen (r.page_size - 4 - r.offset)) (file.length - r.pos))).length
            = min (min blen (r.page_size - 4 - r.offset)) (file.length - r.pos) := by
          unfold sliceAt
          rw [List.length_take, List.length_drop]
          omega
        rw [hlen]
        simp
      · intro i hi
        rw [if_neg htail]
        have hlen : (sliceAt file r.pos
            (min (min blen (r.page_size - 4 - r.offset)) (file.length - r.pos))).length
            ≤ r.page_size - 4 - r.offset := by
          unfold sliceAt
          rw [List.length_take, List.length_drop]
          omega
        have hm : (r.pos + i) % r.page_size = r.pos % r.page_size + i :=
          mod_add_of_lt (by omega)
        simp only [Nat.add_zero]
        rw [hm]
        omega
      · dsimp only
        have hm : (r.pos + min (min blen (r.page_size - 4 - r.offset))
              (file.length - r.pos)) % r.page_size
            = r.pos % r.page_size + min (min blen (r.page_size - 4 - r.offset))
              (file.length - r.pos) :=
          mod_add_of_lt (by omega)
        rw [hm, ← hsync]
      · rfl
  · intro p hp
    unfold PagedReader.seek_physical PagedReader.read
    dsimp only
    rw [if_neg (show ¬ (p % r.page_size = r.page_size - 4) by omega)]
    dsimp only
    rw [if_pos (show r.page_size - 4 < p % r.page_size from hp)]

/-- Witness for C10: the fresh reader `rC10` satisfies the hypotheses; reads
from it stay in the payload, and seeking to physical offset 1022 (inside
page 0's checksum tail) makes the next read hit `unreachable!()`. -/
theorem claim_C10_witness :
    ((4 : Nat) < rC10.page_size ∧ rC10.offset = rC10.pos % rC10.page_size) ∧
    ((rC10.offset ≤ rC10.page_size - 4 →
      ∃ data r', rC10.read fileC10 10 = .ok data r' ∧
        data = sliceAt fileC10
          (rC10.pos + (if rC10.offset = rC10.page_size - 4 then 4 else 0))
          data.length ∧
        (∀ i, i < data.length →
          (rC10.pos + (if rC10.offset = rC10.page_size - 4 then 4 else 0) + i)
            % rC10.page_size < rC10.page_size - 4) ∧
        r'.offset = r'.pos % rC10.page_size ∧ r'.page_size = rC10.page_size) ∧
    (∀ p, rC10.page_size - 4 < p % rC10.page_size →
      (rC10.seek_physical p).read fileC10 10 = .hitUnreachable)) ∧
    (rC10.seek_physical 1022).read fileC10 10 = .hitUnreachable :=
  ⟨⟨by decide, by decide⟩,
    claim_C10_read_payload_or_panic rC10 fileC10 10 (by decide) (by decide),
    (claim_C10_read_payload_or_panic rC10 fileC10 10 (by decide) (by decide)).2
      1022 (by decide)⟩

end E57
